import Mathlib

/-!
Verification development for the brevo-nocodb-sync repository.

The repository consists of two Python scripts:
  * `brevo-nocodb-sync.py` — pulls email campaigns from the Brevo API and
    upserts them into a NocoDB table (status mapper, record transformer,
    reconciliation planner, two-phase apply);
  * `brevo-campagne.py`    — exports the same campaigns to a CSV file
    (carries its own, larger, status mapper).

We shallowly embed the data-manipulating core of both scripts.  Python
values flowing through the scripts (JSON-decoded API payloads) are
modelled by the inductive type `PyVal`; Python `dict`s are association
lists whose insertion operation overwrites in place, matching CPython
dict semantics.  Fallible Python code (attribute errors, key errors,
`int()` conversion failures) is modelled with `Option`.  Floating point
division and `round(x, 2)` are idealised over `ℚ` with Python's
round-half-to-even tie rule.
-/

/-- A JSON-decoded Python value as it appears in the scripts:
`None`, booleans, integers, strings, lists and string-keyed dicts. -/
inductive PyVal where
  | none
  | bool (b : Bool)
  | int (n : Int)
  | str (s : String)
  | list (xs : List PyVal)
  | dict (entries : List (String × PyVal))
deriving Repr

namespace PyVal

/-- Is this value a Python dict? -/
def isDict : PyVal → Bool
  | .dict _ => true
  | _ => false

end PyVal

mutual

/-- Structural boolean equality on `PyVal`. -/
def PyVal.beq : PyVal → PyVal → Bool
  | .none, .none => true
  | .bool a, .bool b => a == b
  | .int a, .int b => a == b
  | .str a, .str b => a == b
  | .list xs, .list ys => PyVal.beqList xs ys
  | .dict es, .dict fs => PyVal.beqEntries es fs
  | _, _ => false

/-- Structural boolean equality on lists of `PyVal`. -/
def PyVal.beqList : List PyVal → List PyVal → Bool
  | [], [] => true
  | x :: xs, y :: ys => PyVal.beq x y && PyVal.beqList xs ys
  | _, _ => false

/-- Structural boolean equality on dict entry lists. -/
def PyVal.beqEntries : List (String × PyVal) → List (String × PyVal) → Bool
  | [], [] => true
  | (k, v) :: es, (l, w) :: fs => k == l && PyVal.beq v w && PyVal.beqEntries es fs
  | _, _ => false

end

mutual

theorem PyVal.beq_refl : ∀ a : PyVal, PyVal.beq a a = true
  | .none => rfl
  | .bool b => by simp [PyVal.beq]
  | .int n => by simp [PyVal.beq]
  | .str s => by simp [PyVal.beq]
  | .list xs => by simpa [PyVal.beq] using PyVal.beqList_refl xs
  | .dict es => by simpa [PyVal.beq] using PyVal.beqEntries_refl es

theorem PyVal.beqList_refl : ∀ xs : List PyVal, PyVal.beqList xs xs = true
  | [] => rfl
  | x :: xs => by simp [PyVal.beqList, PyVal.beq_refl x, PyVal.beqList_refl xs]

theorem PyVal.beqEntries_refl : ∀ es : List (String × PyVal), PyVal.beqEntries es es = true
  | [] => rfl
  | (k, v) :: es => by
      simp [PyVal.beqEntries, PyVal.beq_refl v, PyVal.beqEntries_refl es]

end

mutual

theorem PyVal.eq_of_beq : ∀ (a b : PyVal), PyVal.beq a b = true → a = b
  | .none, b, h => by cases b <;> first | rfl | simp [PyVal.beq] at h
  | .bool a, b, h => by
      cases b <;> simp [PyVal.beq] at h
      rw [h]
  | .int a, b, h => by
      cases b <;> simp [PyVal.beq] at h
      rw [h]
  | .str a, b, h => by
      cases b <;> simp [PyVal.beq] at h
      rw [h]
  | .list xs, b, h => by
      cases b <;> simp [PyVal.beq] at h
      rw [PyVal.eq_of_beqList xs _ h]
  | .dict es, b, h => by
      cases b <;> simp [PyVal.beq] at h
      rw [PyVal.eq_of_beqEntries es _ h]

theorem PyVal.eq_of_beqList : ∀ (a b : List PyVal), PyVal.beqList a b = true → a = b
  | [], [], _ => rfl
  | [], _ :: _, h => by simp [PyVal.beqList] at h
  | _ :: _, [], h => by simp [PyVal.beqList] at h
  | x :: xs, y :: ys, h => by
      simp only [PyVal.beqList, Bool.and_eq_true] at h
      rw [PyVal.eq_of_beq x y h.1, PyVal.eq_of_beqList xs ys h.2]

theorem PyVal.eq_of_beqEntries :
    ∀ (a b : List (String × PyVal)), PyVal.beqEntries a b = true → a = b
  | [], [], _ => rfl
  | [], _ :: _, h => by simp [PyVal.beqEntries] at h
  | _ :: _, [], h => by simp [PyVal.beqEntries] at h
  | (k, v) :: es, (l, w) :: fs, h => by
      simp only [PyVal.beqEntries, Bool.and_eq_true, beq_iff_eq] at h
      rw [h.1.1, PyVal.eq_of_beq v w h.1.2, PyVal.eq_of_beqEntries es fs h.2]

end

instance : DecidableEq PyVal := fun a b =>
  if h : PyVal.beq a b = true then .isTrue (PyVal.eq_of_beq a b h)
  else .isFalse (fun he => h (he ▸ PyVal.beq_refl a))

/-- First-match lookup in an association list: the lookup semantics of a
Python dict once represented as a key-unique association list. -/
def dictGet : List (String × PyVal) → String → Option PyVal
  | [], _ => Option.none
  | (k, v) :: rest, key => if k = key then some v else dictGet rest key

/-- `d[k] = v` on a Python dict: overwrite the binding in place if the key
is present, append it otherwise (CPython insertion-order semantics). -/
def dictInsert : List (String × PyVal) → String → PyVal → List (String × PyVal)
  | [], k, v => [(k, v)]
  | (k', v') :: rest, k, v =>
      if k' = k then (k, v) :: rest else (k', v') :: dictInsert rest k v

/-- Python truthiness: `None`, `False`, `0`, `""`, `[]` and the empty dict
are falsy, everything else is truthy. -/
def pyTruthy : PyVal → Bool
  | .none => false
  | .bool b => b
  | .int n => n != 0
  | .str s => s != ""
  | .list xs => !xs.isEmpty
  | .dict es => !es.isEmpty

/-- Python `a or b`: `a` when truthy, else `b`. -/
def pyOr (a b : PyVal) : PyVal := if pyTruthy a then a else b

/-- Python `x.get(k, d)`: only dicts have a `.get` attribute, so any other
receiver is an `AttributeError`, modelled as `Option.none`. -/
def pyGetD : PyVal → String → PyVal → Option PyVal
  | .dict es, k, d => some ((dictGet es k).getD d)
  | _, _, _ => Option.none

/-- Python `x.get(k)` (default `None`). -/
def pyGet (v : PyVal) (k : String) : Option PyVal := pyGetD v k .none

/-- Python `x[k]` subscription on a value expected to be a dict: a missing
key (`KeyError`) or a non-dict receiver (`TypeError`) is `Option.none`. -/
def pyGetItem (v : PyVal) (k : String) : Option PyVal :=
  match v with
  | .dict es => dictGet es k
  | _ => Option.none

/-- The `int()` builtin on the values that occur here: ints are kept,
booleans become 0/1, decimal strings are parsed; `None`, lists and dicts
raise (`Option.none`). -/
def pyToInt : PyVal → Option Int
  | .bool b => some (if b then 1 else 0)
  | .int n => some n
  | .str s => s.toInt?
  | _ => Option.none

mutual

/-- Python `repr` of a value (string escaping inside reprs is idealised). -/
def pyRepr : PyVal → String
  | .none => "None"
  | .bool true => "True"
  | .bool false => "False"
  | .int n => toString n
  | .str s => "\x27" ++ s ++ "\x27"
  | .list xs => "[" ++ String.intercalate ", " (pyReprList xs) ++ "]"
  | .dict es => "\x7b" ++ String.intercalate ", " (pyReprEntries es) ++ "\x7d"

/-- `repr` of each element of a Python list. -/
def pyReprList : List PyVal → List String
  | [] => []
  | x :: xs => pyRepr x :: pyReprList xs

/-- `repr` of each `key: value` entry of a Python dict. -/
def pyReprEntries : List (String × PyVal) → List String
  | [] => []
  | (k, v) :: rest => ("\x27" ++ k ++ "\x27: " ++ pyRepr v) :: pyReprEntries rest

end

/-- The `str()` builtin: identity on strings, `repr` otherwise. -/
def pyStr : PyVal → String
  | .str s => s
  | v => pyRepr v

/-- Round a rational to the nearest integer, ties to even — the tie rule
of Python's `round`. -/
def roundHalfEven (q : ℚ) : Int :=
  let f := ⌊q⌋
  let r := q - (f : ℚ)
  if r < 1 / 2 then f
  else if 1 / 2 < r then f + 1
  else if f % 2 = 0 then f else f + 1

/-- Python `round(x, 2)` idealised over the rationals. -/
def pyRound2 (q : ℚ) : ℚ := (roundHalfEven (q * 100) : ℚ) / 100

/-!
## brevo-nocodb-sync.py — the sync script

Definitions below mirror, function by function, the data-manipulating
code of `brevo-nocodb-sync.py`.  HTTP traffic is abstracted: a function
that reads a response takes the decoded response as an argument, and a
function that writes takes an oracle describing the outcome of each
request it would issue.
-/

/-- The literal `status_map` dict of `map_brevo_status` in
`brevo-nocodb-sync.py` (seven entries). -/
def status_map : List (String × String) :=
  [("draft", "Draft"), ("scheduled", "Scheduled"), ("queued", "Sending"),
   ("sending", "Sending"), ("sent", "Sent"), ("paused", "Paused"),
   ("failed", "Failed")]

/-- First-match lookup in a string-to-string association list. -/
def strDictGet : List (String × String) → String → Option String
  | [], _ => Option.none
  | (k, v) :: rest, key => if k = key then some v else strDictGet rest key

/-- `map_brevo_status` of `brevo-nocodb-sync.py`:
`status_map.get(status, status)`.  A non-string argument is not a key of
the table, so it comes back unchanged. -/
def map_brevo_status : PyVal → PyVal
  | .str s => .str ((strDictGet status_map s).getD s)
  | v => v

/-- The NocoDB record payload built by `transform_campaign_data`, one
field per key of the returned dict. -/
structure NocoRecord where
  id_campagna : String
  nome_campagna : PyVal
  data_creazione : PyVal
  data_invio : PyVal
  data_fine : PyVal
  stato : PyVal
  num_contatti : Int
  tasso_apertura_pct : ℚ
  tasso_clic_pct : ℚ
  num_conversioni : PyVal
  budget : PyVal
  roi_pct : PyVal
  note : PyVal
  sender : PyVal
  url_campagna : String
deriving Repr, DecidableEq

/-- Lines 261–262 of the sync script:
`stats_root = campaign.get('statistics', {})` followed by
`global_stats = stats_root.get('globalStats', {}) or {}`.
Fails (`AttributeError`) when the receiver of a `.get` is not a dict —
notably when the campaign carries `statistics: None`. -/
def globalStatsOf (campaign : PyVal) : Option PyVal := do
  let stats_root ← pyGetD campaign "statistics" (.dict [])
  let gsraw ← pyGetD stats_root "globalStats" (.dict [])
  pure (pyOr gsraw (.dict []))

/-- One statistics count: `int(global_stats.get(key, 0) or 0)`. -/
def intStat (global_stats : PyVal) (key : String) : Option Int := do
  let raw ← pyGetD global_stats key (.int 0)
  pyToInt (pyOr raw (.int 0))

/-- The sender-extraction block of `transform_campaign_data`
(lines 276–285): start from `None`; a truthy dict yields
`email or name or senderName or str(dict)`; any other truthy value is
passed through `str`; a falsy field (absent, `None`, `''`, or the empty
dict) leaves `None`. -/
def extractSender (sender_field : PyVal) : PyVal :=
  if pyTruthy sender_field then
    match sender_field with
    | .dict es =>
        pyOr ((dictGet es "email").getD .none)
          (pyOr ((dictGet es "name").getD .none)
            (pyOr ((dictGet es "senderName").getD .none)
              (.str (pyStr sender_field))))
    | v => .str (pyStr v)
  else .none

/-- `transform_campaign_data` of `brevo-nocodb-sync.py`. -/
def transform_campaign_data (campaign : PyVal) : Option NocoRecord := do
  let global_stats ← globalStatsOf campaign
  let delivered ← intStat global_stats "delivered"
  let unique_views ← intStat global_stats "uniqueViews"
  let unique_clicks ← intStat global_stats "uniqueClicks"
  let base : Int := if delivered > 0 then delivered else 1
  let tasso_apertura_pct : ℚ :=
    if delivered > 0 then pyRound2 ((unique_views : ℚ) / (base : ℚ) * 100) else 0
  let tasso_clic_pct : ℚ :=
    if delivered > 0 then pyRound2 ((unique_clicks : ℚ) / (base : ℚ) * 100) else 0
  let sender_field ← pyGet campaign "sender"
  let idv ← pyGetD campaign "id" (.str "")
  let namev ← pyGetD campaign "name" (.str "N/A")
  let createdv ← pyGet campaign "createdAt"
  let schedv ← pyGet campaign "scheduledAt"
  let statusv ← pyGetD campaign "status" (.str "unknown")
  let subjv ← pyGetD campaign "subject" (.str "")
  pure
    { id_campagna := pyStr idv
      nome_campagna := namev
      data_creazione := createdv
      data_invio := schedv
      data_fine := .none
      stato := map_brevo_status statusv
      num_contatti := delivered
      tasso_apertura_pct := tasso_apertura_pct
      tasso_clic_pct := tasso_clic_pct
      num_conversioni := .none
      budget := .none
      roi_pct := .none
      note := subjv
      sender := extractSender sender_field
      url_campagna := "https://app.brevo.com/campaigns/" ++ pyStr idv }

/-- `str(campaign.get('id'))` — the key under which the reconciliation
loop looks a campaign up in the existing-records dict. -/
def campaignId (c : PyVal) : String := pyStr ((pyGet c "id").getD PyVal.none)

/-- `campaign.get('status')` as read by the reconciliation loop. -/
def campaignStatus (c : PyVal) : PyVal := (pyGet c "status").getD PyVal.none

/-- The spec's "new" condition: the stringified identifier is absent
from the existing-records mapping. -/
def isNew (existing : List (String × PyVal)) (c : PyVal) : Bool :=
  !(dictGet existing (campaignId c)).isSome

/-- The spec's "to update" condition: identifier present in the mapping
and raw source status not the exact string `'sent'`. -/
def needsUpdate (existing : List (String × PyVal)) (c : PyVal) : Bool :=
  (dictGet existing (campaignId c)).isSome
    && !(PyVal.beq (campaignStatus c) (.str "sent"))

/-- The reconciliation loop of `sync_brevo_to_nocodb` (lines 342–352):
walk the Brevo campaigns in order; a campaign whose stringified id is
not a key of `existing_campaigns` joins `new_campaigns`; otherwise, if
its raw status is not the exact string `'sent'`, the pair
`(campaign_id, campaign)` joins `campaigns_to_update`; otherwise it is
skipped.  A non-dict campaign raises (`AttributeError`), modelled as
`Option.none`. -/
def syncPlan (existing : List (String × PyVal)) :
    List PyVal → Option (List PyVal × List (String × PyVal))
  | [] => some ([], [])
  | c :: rest =>
      match pyGet c "id", pyGet c "status" with
      | some idv, some statusv =>
          (syncPlan existing rest).map (fun p =>
            let cid := pyStr idv
            if (dictGet existing cid).isSome = false then (c :: p.1, p.2)
            else if statusv ≠ .str "sent" then (p.1, (cid, c) :: p.2)
            else p)
      | _, _ => Option.none

/-- Lines 381–384: turn each planned `(campaign_id, campaign)` pair into
`(existing_campaigns[campaign_id]['Id'], transform_campaign_data(campaign))`.
A missing key or `'Id'` field raises, modelled as `Option.none`. -/
def buildUpdates (existing : List (String × PyVal)) :
    List (String × PyVal) → Option (List (PyVal × NocoRecord))
  | [] => some []
  | (cid, c) :: rest =>
      match dictGet existing cid with
      | Option.none => Option.none
      | some r0 =>
          match pyGetItem r0 "Id" with
          | Option.none => Option.none
          | some rowId =>
              match transform_campaign_data c with
              | Option.none => Option.none
              | some tr =>
                  match buildUpdates existing rest with
                  | Option.none => Option.none
                  | some tail => some ((rowId, tr) :: tail)

/-- Outcome of one HTTP request issued by the NocoDB client: a response
with a status code, or a raised `RequestException`. -/
inductive HttpResult where
  | status (code : Nat)
  | netError
deriving Repr, DecidableEq

/-- Decoded outcome of the GET issued by
`NocODBClient.get_existing_campaigns_dict`: either a response carrying a
status code and a decoded JSON body, or an exception. -/
inductive FetchOutcome where
  | response (status : Nat) (body : PyVal)
  | failure
deriving Repr, DecidableEq

/-- `str(record.get('id_campagna'))` — the key under which the index
comprehension files an existing NocoDB record. -/
def recordKey (r : PyVal) : String := pyStr ((pyGet r "id_campagna").getD PyVal.none)

/-- The dict comprehension of `get_existing_campaigns_dict` (lines
117–121): iterate `data.get('list', [])` and bind
`str(record.get('id_campagna'))` to the record, later records
overwriting earlier ones as in a Python dict.  Any shape that would
raise inside the `try` (a non-list `'list'` field, a non-dict record, a
non-dict body) is `Option.none`. -/
def campaignsIndexOf (body : PyVal) : Option (List (String × PyVal)) := do
  let lv ← pyGetD body "list" (.list [])
  match lv with
  | .list records =>
      records.foldlM (fun d r =>
        match r with
        | .dict _ => some (dictInsert d (recordKey r) r)
        | _ => Option.none) []
  | _ => Option.none

/-- `NocODBClient.get_existing_campaigns_dict`: on a 200 response the
decoded index (or `{}` if decoding raises inside the `try`), and `{}`
on every other status code and on every exception. -/
def get_existing_campaigns_dict (f : FetchOutcome) : List (String × PyVal) :=
  match f with
  | .response st body => if st = 200 then (campaignsIndexOf body).getD [] else []
  | .failure => []

/-- The reduced field subset built by the 403 fallback branch of
`NocODBClient.insert_records` (lines 194–201). -/
structure SimplifiedRecord where
  id_campagna : String
  nome_campagna : PyVal
  data_creazione : PyVal
  data_invio : PyVal
  stato : PyVal
  num_contatti : Int
deriving Repr, DecidableEq

/-- `simplified_record = {'id_campagna': record.get('id_campagna'), ...}`:
the six retained fields of the full record. -/
def simplified_record (r : NocoRecord) : SimplifiedRecord :=
  { id_campagna := r.id_campagna
    nome_campagna := r.nome_campagna
    data_creazione := r.data_creazione
    data_invio := r.data_invio
    stato := r.stato
    num_contatti := r.num_contatti }

/-- A JSON payload POSTed by `insert_records`: the full transformed
record, or the reduced six-field fallback. -/
inductive Payload where
  | full (r : NocoRecord)
  | simplified (s : SimplifiedRecord)
deriving Repr, DecidableEq

/-- The body of the per-record `try` of `insert_records` (lines
186–214) for one record, given the outcomes of the first POST and of
the (potential) fallback POST: the list of payloads actually sent, in
order, and whether the record ended up inserted.  2xx success and plain
failures send one payload; exactly a 403 triggers exactly one retry
carrying the simplified record. -/
def insertOne (r : NocoRecord) (first second : HttpResult) : List Payload × Bool :=
  match first with
  | .netError => ([.full r], false)
  | .status c =>
      if c = 200 ∨ c = 201 then ([.full r], true)
      else if c = 403 then
        match second with
        | .netError => ([.full r, .simplified (simplified_record r)], false)
        | .status c2 =>
            ([.full r, .simplified (simplified_record r)], c2 = 200 ∨ c2 = 201)
      else ([.full r], false)

/-- `NocODBClient.insert_records`: every record of the batch is
processed in order — a per-record failure is logged and the loop moves
on — so the result has one `(payloads, succeeded)` entry per input
record.  `oracle i` gives the outcomes of the (up to two) POSTs for the
i-th record. -/
def insert_records (records : List NocoRecord)
    (oracle : Nat → HttpResult × HttpResult) : List (List Payload × Bool) :=
  match records with
  | [] => []
  | r :: rest =>
      insertOne r (oracle 0).1 (oracle 0).2 ::
        insert_records rest (fun i => oracle (i + 1))

/-- How a run of `sync_brevo_to_nocodb` ends, as far as the modelled
decision logic goes. -/
inductive SyncMessage where
  /-- Early return: `⚠️ Nessuna campagna trovata in Brevo`. -/
  | noCampaigns
  /-- Early return: `✨ Nessuna campagna da sincronizzare`. -/
  | nothingToDo
  /-- `sync_records` was reached with the planned writes. -/
  | completed
  /-- An exception escaped to the outer handler, which calls `exit(1)`. -/
  | failed
deriving Repr, DecidableEq

/-- Result of a run: the closing message, the insert and update
payloads handed to `sync_records` (one POST per planned insert, one
PATCH per planned update; both lists empty when `sync_records` is never
reached), and the process exit code. -/
structure SyncOutcome where
  message : SyncMessage
  plannedInserts : List NocoRecord
  plannedUpdates : List (PyVal × NocoRecord)
  exitCode : Nat
deriving Repr, DecidableEq

/-- Transform every new campaign (line 377). -/
def buildInserts : List PyVal → Option (List NocoRecord)
  | [] => some []
  | c :: rest => do
      let r ← transform_campaign_data c
      let tail ← buildInserts rest
      pure (r :: tail)

/-- `sync_brevo_to_nocodb` from the point where the Brevo campaigns and
the existing-records dict are in hand: empty fetch returns early;
otherwise plan, return early when the plan is empty, otherwise
transform and hand both lists to `sync_records`.  Any exception raised
along the way reaches the outer handler and exits with code 1. -/
def sync_brevo_to_nocodb (all_campaigns : List PyVal)
    (existing_campaigns : List (String × PyVal)) : SyncOutcome :=
  if all_campaigns.isEmpty then
    { message := .noCampaigns, plannedInserts := [], plannedUpdates := [], exitCode := 0 }
  else
    match syncPlan existing_campaigns all_campaigns with
    | Option.none =>
        { message := .failed, plannedInserts := [], plannedUpdates := [], exitCode := 1 }
    | some (new_campaigns, campaigns_to_update) =>
        if new_campaigns.isEmpty && campaigns_to_update.isEmpty then
          { message := .nothingToDo, plannedInserts := [], plannedUpdates := [],
            exitCode := 0 }
        else
          match buildInserts new_campaigns, buildUpdates existing_campaigns campaigns_to_update with
          | some nr, some ups =>
              { message := .completed, plannedInserts := nr, plannedUpdates := ups,
                exitCode := 0 }
          | _, _ =>
              { message := .failed, plannedInserts := [], plannedUpdates := [],
                exitCode := 1 }

/-!
## brevo-campagne.py — the CSV exporter

Only its status mapper is needed by the claims; it differs from the
sync script's by three extra rows.
-/

namespace Campagne

/-- The literal `status_map` dict of `map_brevo_status` in
`brevo-campagne.py` (ten entries). -/
def status_map : List (String × String) :=
  [("draft", "Draft"), ("scheduled", "Scheduled"), ("queued", "Sending"),
   ("sending", "Sending"), ("sent", "Sent"), ("paused", "Paused"),
   ("failed", "Failed"), ("inProcess", "Sending"), ("archive", "Archived"),
   ("suspended", "Suspended")]

/-- `map_brevo_status` of `brevo-campagne.py`. -/
def map_brevo_status : PyVal → PyVal
  | .str s => .str ((strDictGet status_map s).getD s)
  | v => v

end Campagne

/-!
## Concrete sample inputs

Small concrete campaigns, mappings and records used to instantiate the
hypothesis-bearing theorems below.
-/

/-- A campaign with id 1, already sent. -/
def campA : PyVal := .dict [("id", .int 1), ("status", .str "sent")]

/-- A campaign with id 2, already sent. -/
def campB : PyVal := .dict [("id", .int 2), ("status", .str "sent")]

/-- A campaign with id 1, still in draft. -/
def campDraft : PyVal := .dict [("id", .int 1), ("status", .str "draft")]

/-- An existing-records mapping holding only campaign 1. -/
def mapOne : List (String × PyVal) := [("1", .dict [("Id", .int 10)])]

/-- An existing-records mapping holding only campaign 2. -/
def mapTwo : List (String × PyVal) := [("2", .dict [("Id", .int 11)])]

/-- An existing-records mapping holding campaigns 1 and 2. -/
def mapBoth : List (String × PyVal) :=
  [("1", .dict [("Id", .int 10)]), ("2", .dict [("Id", .int 11)])]

/-- A campaign whose sender is the structured object
`{"name": "A"}` and nothing else. -/
def campSender : List (String × PyVal) := [("sender", .dict [("name", .str "A")])]

/-- What `transform_campaign_data` produces on `.dict campSender`. -/
def recSender : NocoRecord :=
  { id_campagna := ""
    nome_campagna := .str "N/A"
    data_creazione := .none
    data_invio := .none
    data_fine := .none
    stato := .str "unknown"
    num_contatti := 0
    tasso_apertura_pct := 0
    tasso_clic_pct := 0
    num_conversioni := .none
    budget := .none
    roi_pct := .none
    note := .str ""
    sender := .str "A"
    url_campagna := "https://app.brevo.com/campaigns/" }

/-- A campaign with 0 delivered but nonzero unique views and clicks. -/
def campStats : PyVal :=
  .dict [("statistics", .dict [("globalStats", .dict
    [("delivered", .int 0), ("uniqueViews", .int 1), ("uniqueClicks", .int 3)])])]

/-- The `globalStats` block of `campStats`. -/
def gsStats : PyVal :=
  .dict [("delivered", .int 0), ("uniqueViews", .int 1), ("uniqueClicks", .int 3)]

/-- What `transform_campaign_data` produces on `campStats`: 0 delivered,
and both rates forced to 0 despite the nonzero view and click counts. -/
def recStats : NocoRecord :=
  { id_campagna := ""
    nome_campagna := .str "N/A"
    data_creazione := .none
    data_invio := .none
    data_fine := .none
    stato := .str "unknown"
    num_contatti := 0
    tasso_apertura_pct := 0
    tasso_clic_pct := 0
    num_conversioni := .none
    budget := .none
    roi_pct := .none
    note := .str ""
    sender := .none
    url_campagna := "https://app.brevo.com/campaigns/" }

/-- Two NocoDB rows sharing the campaign identifier `"5"`. -/
def rowFirst : PyVal := .dict [("id_campagna", .str "5"), ("Id", .int 1)]

/-- The later of the two duplicate rows. -/
def rowSecond : PyVal := .dict [("id_campagna", .str "5"), ("Id", .int 2)]

/-!
## General lemmas
-/

theorem PyVal.beq_iff_eq (a b : PyVal) : PyVal.beq a b = true ↔ a = b :=
  ⟨PyVal.eq_of_beq a b, fun h => h ▸ PyVal.beq_refl a⟩

theorem strDictGet_eq_none (tbl : List (String × String)) (s : String)
    (h : ∀ p ∈ tbl, p.1 ≠ s) : strDictGet tbl s = Option.none := by
  induction tbl with
  | nil => rfl
  | cons p rest ih =>
      obtain ⟨k, v⟩ := p
      have hk : k ≠ s := h (k, v) (List.mem_cons_self _ _)
      simp only [strDictGet, if_neg hk]
      exact ih (fun q hq => h q (List.mem_cons_of_mem _ hq))

/-!
## C2 — status mapper
-/

/-- C2 counterexample: the claim asserts the ten-row table for the
Status Mapper, citing `map_brevo_status` of both scripts, but the sync
script's seven-row mapper passes `inProcess`, `archive` and `suspended`
through unchanged instead of normalizing them. -/
theorem C2_status_mapper_counterexample :
    map_brevo_status (.str "inProcess") = .str "inProcess"
    ∧ map_brevo_status (.str "inProcess") ≠ .str "Sending"
    ∧ map_brevo_status (.str "archive") ≠ .str "Archived"
    ∧ map_brevo_status (.str "suspended") ≠ .str "Suspended" := by decide

/-- C2 (amended): the CSV exporter's `map_brevo_status` realizes the
full ten-row table and returns any unmapped string unchanged; the sync
script's `map_brevo_status` realizes only the seven rows
draft/scheduled/queued/sending/sent/paused/failed and returns every
other string — `inProcess`, `archive` and `suspended` included —
unchanged.  Both functions are total. -/
theorem C2_status_mapper_amended :
    (Campagne.map_brevo_status (.str "draft") = .str "Draft"
      ∧ Campagne.map_brevo_status (.str "scheduled") = .str "Scheduled"
      ∧ Campagne.map_brevo_status (.str "queued") = .str "Sending"
      ∧ Campagne.map_brevo_status (.str "sending") = .str "Sending"
      ∧ Campagne.map_brevo_status (.str "sent") = .str "Sent"
      ∧ Campagne.map_brevo_status (.str "paused") = .str "Paused"
      ∧ Campagne.map_brevo_status (.str "failed") = .str "Failed"
      ∧ Campagne.map_brevo_status (.str "inProcess") = .str "Sending"
      ∧ Campagne.map_brevo_status (.str "archive") = .str "Archived"
      ∧ Campagne.map_brevo_status (.str "suspended") = .str "Suspended")
    ∧ (∀ s : String, s ∉ ["draft", "scheduled", "queued", "sending", "sent",
          "paused", "failed", "inProcess", "archive", "suspended"] →
        Campagne.map_brevo_status (.str s) = .str s)
    ∧ (map_brevo_status (.str "draft") = .str "Draft"
      ∧ map_brevo_status (.str "scheduled") = .str "Scheduled"
      ∧ map_brevo_status (.str "queued") = .str "Sending"
      ∧ map_brevo_status (.str "sending") = .str "Sending"
      ∧ map_brevo_status (.str "sent") = .str "Sent"
      ∧ map_brevo_status (.str "paused") = .str "Paused"
      ∧ map_brevo_status (.str "failed") = .str "Failed")
    ∧ (∀ s : String, s ∉ ["draft", "scheduled", "queued", "sending", "sent",
          "paused", "failed"] →
        map_brevo_status (.str s) = .str s) := by
  refine ⟨by decide, ?_, by decide, ?_⟩
  · intro s hs
    have hnone : strDictGet Campagne.status_map s = Option.none := by
      apply strDictGet_eq_none
      intro p hp
      simp only [Campagne.status_map, List.mem_cons, List.not_mem_nil,
        or_false] at hp
      rcases hp with h | h | h | h | h | h | h | h | h | h <;>
        (subst h; rintro rfl; exact hs (by decide))
    simp [Campagne.map_brevo_status, hnone]
  · intro s hs
    have hnone : strDictGet status_map s = Option.none := by
      apply strDictGet_eq_none
      intro p hp
      simp only [status_map, List.mem_cons, List.not_mem_nil, or_false] at hp
      rcases hp with h | h | h | h | h | h | h <;>
        (subst h; rintro rfl; exact hs (by decide))
    simp [map_brevo_status, hnone]

/-- C2 witness: the amended theorem's pass-through clauses instantiated
at the unmapped strings `zzz` and `inProcess`. -/
theorem C2_status_mapper_witness :
    Campagne.map_brevo_status (.str "zzz") = .str "zzz"
    ∧ map_brevo_status (.str "inProcess") = .str "inProcess" :=
  ⟨C2_status_mapper_amended.2.1 "zzz" (by decide),
   C2_status_mapper_amended.2.2.2 "inProcess" (by decide)⟩

/-!
## The record transformer, characterised
-/

set_option maxHeartbeats 2000000 in
/-- `transform_campaign_data` on a dict campaign, written as explicit
`Option.bind`s around the three statistics reads, with every passthrough
field spelled out.  (`base` equals `delivered` whenever the rate is
actually computed, so the rates below divide by `delivered` directly.) -/
theorem transform_campaign_data_eq (es : List (String × PyVal)) :
    transform_campaign_data (.dict es) =
      (globalStatsOf (.dict es)).bind (fun gs =>
        (intStat gs "delivered").bind (fun d =>
          (intStat gs "uniqueViews").bind (fun uv =>
            (intStat gs "uniqueClicks").bind (fun uc =>
              some
                { id_campagna := pyStr ((dictGet es "id").getD (.str ""))
                  nome_campagna := (dictGet es "name").getD (.str "N/A")
                  data_creazione := (dictGet es "createdAt").getD .none
                  data_invio := (dictGet es "scheduledAt").getD .none
                  data_fine := .none
                  stato := map_brevo_status ((dictGet es "status").getD (.str "unknown"))
                  num_contatti := d
                  tasso_apertura_pct :=
                    if d > 0 then pyRound2 ((uv : ℚ) / (d : ℚ) * 100) else 0
                  tasso_clic_pct :=
                    if d > 0 then pyRound2 ((uc : ℚ) / (d : ℚ) * 100) else 0
                  num_conversioni := .none
                  budget := .none
                  roi_pct := .none
                  note := (dictGet es "subject").getD (.str "")
                  sender := extractSender ((dictGet es "sender").getD .none)
                  url_campagna :=
                    "https://app.brevo.com/campaigns/"
                      ++ pyStr ((dictGet es "id").getD (.str "")) })))) := by
  cases hgs : globalStatsOf (.dict es) with
  | none => simp [transform_campaign_data, hgs]
  | some gs =>
    cases hd : intStat gs "delivered" with
    | none => simp [transform_campaign_data, hgs, hd]
    | some d =>
      cases huv : intStat gs "uniqueViews" with
      | none => simp [transform_campaign_data, hgs, hd, huv]
      | some uv =>
        cases huc : intStat gs "uniqueClicks" with
        | none => simp [transform_campaign_data, hgs, hd, huv, huc]
        | some uc =>
          by_cases hdp : d > 0 <;>
            simp [transform_campaign_data, hgs, hd, huv, huc, hdp,
              pyGet, pyGetD]

/-- A non-dict campaign makes the transformer raise at its very first
`.get`. -/
theorem transform_none_of_not_dict (c : PyVal) (h : c.isDict = false) :
    transform_campaign_data c = Option.none := by
  cases c <;> simp [transform_campaign_data, globalStatsOf, pyGetD] <;>
    simp [PyVal.isDict] at h

/-- Successful transformation pins down the statistics reads and the
derived fields of the produced record. -/
theorem transform_fields (es : List (String × PyVal)) (r : NocoRecord)
    (hr : transform_campaign_data (.dict es) = some r) :
    ∃ gs d uv uc, globalStatsOf (.dict es) = some gs
      ∧ intStat gs "delivered" = some d
      ∧ intStat gs "uniqueViews" = some uv
      ∧ intStat gs "uniqueClicks" = some uc
      ∧ r.num_contatti = d
      ∧ r.tasso_apertura_pct =
          (if d > 0 then pyRound2 ((uv : ℚ) / (d : ℚ) * 100) else 0)
      ∧ r.tasso_clic_pct =
          (if d > 0 then pyRound2 ((uc : ℚ) / (d : ℚ) * 100) else 0)
      ∧ r.sender = extractSender ((dictGet es "sender").getD PyVal.none) := by
  rw [transform_campaign_data_eq] at hr
  cases hgs : globalStatsOf (.dict es) with
  | none => rw [hgs] at hr; exact absurd hr (by simp)
  | some gs =>
  rw [hgs, Option.some_bind] at hr
  cases hd : intStat gs "delivered" with
  | none => rw [hd] at hr; exact absurd hr (by simp)
  | some d =>
  rw [hd, Option.some_bind] at hr
  cases huv : intStat gs "uniqueViews" with
  | none => rw [huv] at hr; exact absurd hr (by simp)
  | some uv =>
  rw [huv, Option.some_bind] at hr
  cases huc : intStat gs "uniqueClicks" with
  | none => rw [huc] at hr; exact absurd hr (by simp)
  | some uc =>
  rw [huc, Option.some_bind] at hr
  have hR := Option.some.inj hr
  subst hR
  exact ⟨gs, d, uv, uc, rfl, hd, huv, huc, rfl, rfl, rfl, rfl⟩

/-- A truthy value is never Python `None`. -/
theorem truthy_ne_none (a : PyVal) (h : pyTruthy a = true) : a ≠ PyVal.none := by
  rintro rfl; simp [pyTruthy] at h

/-- On a falsy sender field the extraction leaves `None`. -/
theorem extractSender_falsy (sf : PyVal) (h : pyTruthy sf = false) :
    extractSender sf = PyVal.none := by
  simp [extractSender, h]

/-- A non-empty plain-string sender is used as-is. -/
theorem extractSender_str (s : String) (h : s ≠ "") :
    extractSender (.str s) = .str s := by
  simp [extractSender, pyTruthy, pyStr, h]

/-- A non-empty dict sender goes through the
`email or name or senderName or str(...)` cascade. -/
theorem extractSender_dict (fs : List (String × PyVal)) (h : fs ≠ []) :
    extractSender (.dict fs) =
      pyOr ((dictGet fs "email").getD .none)
        (pyOr ((dictGet fs "name").getD .none)
          (pyOr ((dictGet fs "senderName").getD .none)
            (.str (pyRepr (.dict fs))))) := by
  simp [extractSender, pyTruthy, h, pyStr]

/-- Case analysis of Python's `a or b or c or "s"`: the first truthy
operand wins, the string literal is the last resort, and the result is
never `None`. -/
theorem pyOr_cascade_cases (a b c : PyVal) (s : String) :
    (pyTruthy a = true → pyOr a (pyOr b (pyOr c (.str s))) = a)
    ∧ (pyTruthy a = false → pyTruthy b = true →
        pyOr a (pyOr b (pyOr c (.str s))) = b)
    ∧ (pyTruthy a = false → pyTruthy b = false → pyTruthy c = true →
        pyOr a (pyOr b (pyOr c (.str s))) = c)
    ∧ (pyTruthy a = false → pyTruthy b = false → pyTruthy c = false →
        pyOr a (pyOr b (pyOr c (.str s))) = .str s)
    ∧ pyOr a (pyOr b (pyOr c (.str s))) ≠ PyVal.none := by
  refine ⟨?_, ?_, ?_, ?_, ?_⟩
  · intro ha; simp [pyOr, ha]
  · intro ha hb; simp [pyOr, ha, hb]
  · intro ha hb hc; simp [pyOr, ha, hb, hc]
  · intro ha hb hc; simp [pyOr, ha, hb, hc]
  · by_cases ha : pyTruthy a = true
    · simpa [pyOr, ha] using truthy_ne_none a ha
    · have ha' : pyTruthy a = false := by simpa using ha
      by_cases hb : pyTruthy b = true
      · simpa [pyOr, ha', hb] using truthy_ne_none b hb
      · have hb' : pyTruthy b = false := by simpa using hb
        by_cases hc : pyTruthy c = true
        · simpa [pyOr, ha', hb', hc] using truthy_ne_none c hc
        · have hc' : pyTruthy c = false := by simpa using hc
          simp [pyOr, ha', hb', hc']

/-!
## C3 — transformer totality on missing statistics
-/

/-- C3 counterexample: the claim promises that a null statistics block is
treated as all-zero counts, but a campaign carrying `statistics: None`
makes `transform_campaign_data` raise (`None.get(...)` is an
`AttributeError`): only a *missing* statistics key is defended, and only
the inner `globalStats` read is `or {}`-guarded. -/
theorem C3_transform_stats_counterexample :
    transform_campaign_data (.dict [("statistics", PyVal.none)]) = Option.none := by
  decide

/-- C3 (amended): for every campaign whose statistics key is absent, and
for every campaign whose statistics block is a dict whose `globalStats`
entry is absent or null, the transformer succeeds and produces
delivered, unique-open and unique-click derived fields all zero; a
campaign whose statistics value is null itself, however, makes the
transformer raise. -/
theorem C3_transform_stats_amended (es : List (String × PyVal)) :
    ((dictGet es "statistics" = Option.none
        ∨ ∃ ses, dictGet es "statistics" = some (.dict ses)
            ∧ (dictGet ses "globalStats" = Option.none
               ∨ dictGet ses "globalStats" = some PyVal.none)) →
      ∃ r, transform_campaign_data (.dict es) = some r
        ∧ r.num_contatti = 0 ∧ r.tasso_apertura_pct = 0 ∧ r.tasso_clic_pct = 0)
    ∧ (dictGet es "statistics" = some PyVal.none →
        transform_campaign_data (.dict es) = Option.none) := by
  constructor
  · intro h
    have hgs : globalStatsOf (.dict es) = some (.dict []) := by
      rcases h with h | ⟨ses, h1, h2⟩
      · simp [globalStatsOf, pyGetD, dictGet, h, pyOr, pyTruthy]
      · rcases h2 with h2 | h2 <;>
          simp [globalStatsOf, pyGetD, dictGet, h1, h2, pyOr, pyTruthy]
    have h0 : ∀ k, intStat (.dict []) k = some 0 := by
      intro k; simp [intStat, pyGetD, dictGet, pyOr, pyTruthy, pyToInt]
    rw [transform_campaign_data_eq, hgs, Option.some_bind, h0, Option.some_bind,
      h0, Option.some_bind, h0, Option.some_bind]
    refine ⟨_, rfl, rfl, ?_, ?_⟩ <;> simp
  · intro h
    rw [transform_campaign_data_eq]
    simp [globalStatsOf, pyGetD, h]

/-- C3 witness: a campaign with no statistics key transforms to all-zero
counts, and the `statistics: None` campaign raises. -/
theorem C3_transform_stats_witness :
    (∃ r, transform_campaign_data (.dict [("name", .str "X")]) = some r
      ∧ r.num_contatti = 0 ∧ r.tasso_apertura_pct = 0 ∧ r.tasso_clic_pct = 0)
    ∧ transform_campaign_data (.dict [("statistics", PyVal.none)]) = Option.none :=
  ⟨(C3_transform_stats_amended [("name", .str "X")]).1 (Or.inl (by decide)),
   (C3_transform_stats_amended [("statistics", PyVal.none)]).2 (by decide)⟩

/-!
## C4 — sender extraction
-/

/-- C4 counterexample: the claim says the empty sender object produces
the string rendering of the object and is never null, but `{}` is falsy
in Python, so the `if sender_field:` guard leaves the sender at `None`. -/
theorem C4_sender_extraction_counterexample :
    (transform_campaign_data (.dict [("sender", .dict [])])).map
        (fun r => r.sender) = some PyVal.none
    ∧ PyVal.none ≠ .str (pyStr (.dict [])) := by decide

/-- C4 (amended): on every successfully transformed campaign, an absent
or otherwise falsy sender field (null, the empty string, the empty
object) yields null; a non-empty plain string is used as-is; a
non-empty structured object yields the first truthy value among email,
name and senderName, falling back to the string rendering of the whole
object when all three are falsy, and in the non-empty-object case the
result is never null. -/
theorem C4_sender_extraction_amended (es : List (String × PyVal)) (r : NocoRecord)
    (hr : transform_campaign_data (.dict es) = some r) :
    (pyTruthy ((dictGet es "sender").getD PyVal.none) = false →
      r.sender = PyVal.none)
    ∧ (∀ s, (dictGet es "sender").getD PyVal.none = .str s → s ≠ "" →
        r.sender = .str s)
    ∧ (∀ fs, (dictGet es "sender").getD PyVal.none = .dict fs → fs ≠ [] →
        ((pyTruthy ((dictGet fs "email").getD .none) = true →
            r.sender = (dictGet fs "email").getD .none)
         ∧ (pyTruthy ((dictGet fs "email").getD .none) = false →
            pyTruthy ((dictGet fs "name").getD .none) = true →
            r.sender = (dictGet fs "name").getD .none)
         ∧ (pyTruthy ((dictGet fs "email").getD .none) = false →
            pyTruthy ((dictGet fs "name").getD .none) = false →
            pyTruthy ((dictGet fs "senderName").getD .none) = true →
            r.sender = (dictGet fs "senderName").getD .none)
         ∧ (pyTruthy ((dictGet fs "email").getD .none) = false →
            pyTruthy ((dictGet fs "name").getD .none) = false →
            pyTruthy ((dictGet fs "senderName").getD .none) = false →
            r.sender = .str (pyRepr (.dict fs)))
         ∧ r.sender ≠ PyVal.none)) := by
  obtain ⟨gs, d, uv, uc, _, _, _, _, _, _, _, hs⟩ := transform_fields es r hr
  refine ⟨?_, ?_, ?_⟩
  · intro h
    rw [hs, extractSender_falsy _ h]
  · intro s hsf hne
    rw [hs, hsf, extractSender_str s hne]
  · intro fs hsf hne
    rw [hs, hsf, extractSender_dict fs hne]
    exact pyOr_cascade_cases ((dictGet fs "email").getD .none)
      ((dictGet fs "name").getD .none)
      ((dictGet fs "senderName").getD .none) (pyRepr (.dict fs))

/-- C4 witness: the campaign whose sender is `{"name": "A"}` transforms
successfully and the amended theorem's name-branch yields `"A"`. -/
theorem C4_sender_extraction_witness :
    transform_campaign_data (.dict campSender) = some recSender
    ∧ recSender.sender = .str "A" := by
  have h := C4_sender_extraction_amended campSender recSender (by decide)
  refine ⟨by decide, ?_⟩
  rw [(h.2.2 [("name", .str "A")] (by decide) (by decide)).2.1
    (by decide) (by decide)]
  decide

/-!
## C5 — derived percentage rates
-/

/-- C5: whenever the transformer succeeds, the open and click rates are
`round(uniqueCount / delivered * 100, 2)` for positive delivered counts
and exactly 0 when the delivered count is 0, regardless of the open and
click counts. -/
theorem C5_rates (c : PyVal) (r : NocoRecord) (gs : PyVal) (d uv uc : Int)
    (hr : transform_campaign_data c = some r)
    (hgs : globalStatsOf c = some gs)
    (hd : intStat gs "delivered" = some d)
    (huv : intStat gs "uniqueViews" = some uv)
    (huc : intStat gs "uniqueClicks" = some uc) :
    (d > 0 → r.tasso_apertura_pct = pyRound2 ((uv : ℚ) / (d : ℚ) * 100)
      ∧ r.tasso_clic_pct = pyRound2 ((uc : ℚ) / (d : ℚ) * 100))
    ∧ (d = 0 → r.tasso_apertura_pct = 0 ∧ r.tasso_clic_pct = 0) := by
  obtain ⟨es, rfl⟩ : ∃ es, c = .dict es := by
    cases c with
    | dict es => exact ⟨es, rfl⟩
    | none =>
        rw [transform_none_of_not_dict PyVal.none rfl] at hr
        exact Option.noConfusion hr
    | bool b =>
        rw [transform_none_of_not_dict (PyVal.bool b) rfl] at hr
        exact Option.noConfusion hr
    | int n =>
        rw [transform_none_of_not_dict (PyVal.int n) rfl] at hr
        exact Option.noConfusion hr
    | str s =>
        rw [transform_none_of_not_dict (PyVal.str s) rfl] at hr
        exact Option.noConfusion hr
    | list xs =>
        rw [transform_none_of_not_dict (PyVal.list xs) rfl] at hr
        exact Option.noConfusion hr
  obtain ⟨gs', d', uv', uc', hgs', hd', huv', huc', hn, ha, hc2, _⟩ :=
    transform_fields es r hr
  rw [hgs'] at hgs
  injection hgs with hgs
  subst hgs
  rw [hd'] at hd
  injection hd with hd
  subst hd
  rw [huv'] at huv
  injection huv with huv
  subst huv
  rw [huc'] at huc
  injection huc with huc
  subst huc
  constructor
  · intro hdp
    rw [ha, hc2]
    simp [hdp]
  · intro hd0
    rw [ha, hc2]
    simp [hd0]

/-- C5 witness: 0 delivered with 1 unique view and 3 unique clicks still
gives 0% open and click rates. -/
theorem C5_rates_witness :
    (0 : Int) = 0
    ∧ recStats.tasso_apertura_pct = 0
    ∧ recStats.tasso_clic_pct = 0 := by
  have h := (C5_rates campStats recStats gsStats 0 1 3 (by decide) (by decide)
    (by decide) (by decide) (by decide)).2 (by decide)
  exact ⟨by decide, h.1, h.2⟩

/-!
## C1 — reconciliation partition
-/

/-- A value satisfying `isDict` is a dict. -/
theorem isDict_exists (c : PyVal) (h : c.isDict = true) : ∃ es, c = .dict es := by
  cases c with
  | dict es => exact ⟨es, rfl⟩
  | none => exact absurd h (by simp [PyVal.isDict])
  | bool b => exact absurd h (by simp [PyVal.isDict])
  | int n => exact absurd h (by simp [PyVal.isDict])
  | str s => exact absurd h (by simp [PyVal.isDict])
  | list xs => exact absurd h (by simp [PyVal.isDict])

/-- The reconciliation loop equals the two order-preserving filters of
the spec: campaigns absent from the mapping, and campaigns present but
not in raw status `'sent'` (the latter paired with their stringified
identifier). -/
theorem syncPlan_eq_filters (ex : List (String × PyVal)) :
    ∀ cs : List PyVal, (∀ c ∈ cs, c.isDict = true) →
      syncPlan ex cs = some
        (cs.filter (isNew ex),
         (cs.filter (needsUpdate ex)).map (fun c => (campaignId c, c))) := by
  intro cs
  induction cs with
  | nil => intro _; rfl
  | cons c rest ih =>
      intro h
      have hc : c.isDict = true := h c (List.mem_cons_self _ _)
      have hrest := ih (fun x hx => h x (List.mem_cons_of_mem _ hx))
      obtain ⟨es, rfl⟩ := isDict_exists c hc
      simp only [syncPlan, pyGet, pyGetD, hrest, Option.map_some',
        List.filter_cons, isNew, needsUpdate, campaignId, campaignStatus,
        Option.getD_some]
      by_cases h1 : (dictGet ex (pyStr ((dictGet es "id").getD PyVal.none))).isSome
      · by_cases h2 : (dictGet es "status").getD PyVal.none = .str "sent"
        · simp [h1, h2, PyVal.beq_refl]
        · have hb : PyVal.beq ((dictGet es "status").getD PyVal.none)
              (.str "sent") = false := by
            simp only [Bool.eq_false_iff, ne_eq, PyVal.beq_iff_eq]
            exact h2
          simp [h1, h2, hb]
      · have h1' : (dictGet ex (pyStr ((dictGet es "id").getD PyVal.none))).isSome
            = false := by
          simpa using h1
        simp [h1']

/-- `buildUpdates` pairs every planned `(campaign_id, campaign)` entry,
in order, with the `'Id'` field of the existing record filed under that
campaign id and with the transformed campaign. -/
theorem buildUpdates_forall2 (ex : List (String × PyVal)) :
    ∀ (l : List (String × PyVal)) (ups : List (PyVal × NocoRecord)),
      buildUpdates ex l = some ups →
      List.Forall₂ (fun (p : String × PyVal) (q : PyVal × NocoRecord) =>
        (dictGet ex p.1).bind (fun r0 => pyGetItem r0 "Id") = some q.1
        ∧ transform_campaign_data p.2 = some q.2) l ups := by
  intro l
  induction l with
  | nil =>
      intro ups h
      have h' := Option.some.inj h
      subst h'
      exact List.Forall₂.nil
  | cons p rest ih =>
      intro ups h
      obtain ⟨cid, c⟩ := p
      simp only [buildUpdates] at h
      split at h
      · exact Option.noConfusion h
      · rename_i r0 hr0
        split at h
        · exact Option.noConfusion h
        · rename_i rowId hrow
          split at h
          · exact Option.noConfusion h
          · rename_i tr htr
            split at h
            · exact Option.noConfusion h
            · rename_i tail htail
              have h' := Option.some.inj h
              subst h'
              exact List.Forall₂.cons
                ⟨by rw [hr0, Option.some_bind, hrow], htr⟩ (ih tail htail)

/-- C1: the Reconciliation Planner partitions the source list exactly as
the spec's reference partition — a campaign joins `toInsert` iff its
stringified id is absent from the mapping, joins `toUpdate` iff its id
is present and its raw status is not `'sent'` (each entry then paired by
`buildUpdates` with the existing record's own `'Id'` row identifier), no
campaign satisfies both conditions, and both sets preserve the source
order (they are order-preserving filters of the source list). -/
theorem C1_reconciliation_partition (ex : List (String × PyVal)) (cs : List PyVal)
    (h : ∀ c ∈ cs, c.isDict = true) :
    syncPlan ex cs = some
      (cs.filter (isNew ex),
       (cs.filter (needsUpdate ex)).map (fun c => (campaignId c, c)))
    ∧ (∀ c, ¬(isNew ex c = true ∧ needsUpdate ex c = true))
    ∧ (∀ ups, buildUpdates ex
          ((cs.filter (needsUpdate ex)).map (fun c => (campaignId c, c))) = some ups →
        List.Forall₂ (fun (p : String × PyVal) (q : PyVal × NocoRecord) =>
          (dictGet ex p.1).bind (fun r0 => pyGetItem r0 "Id") = some q.1
          ∧ transform_campaign_data p.2 = some q.2)
          ((cs.filter (needsUpdate ex)).map (fun c => (campaignId c, c))) ups) := by
  refine ⟨syncPlan_eq_filters ex cs h, ?_, ?_⟩
  · rintro c ⟨hn, hu⟩
    simp only [isNew, Bool.not_eq_true'] at hn
    rw [needsUpdate, hn] at hu
    simp at hu
  · intro ups hups
    exact buildUpdates_forall2 ex _ ups hups

/-- C1 witness: a two-campaign list against a one-record mapping — the
draft campaign with id 1 is present (update), the campaign with id 2 is
absent (insert). -/
theorem C1_partition_witness :
    syncPlan mapOne [campDraft, campB] = some
      ([campDraft, campB].filter (isNew mapOne),
       ([campDraft, campB].filter (needsUpdate mapOne)).map
         (fun c => (campaignId c, c)))
    ∧ (∀ c, ¬(isNew mapOne c = true ∧ needsUpdate mapOne c = true))
    ∧ (∀ ups, buildUpdates mapOne
          (([campDraft, campB].filter (needsUpdate mapOne)).map
            (fun c => (campaignId c, c))) = some ups →
        List.Forall₂ (fun (p : String × PyVal) (q : PyVal × NocoRecord) =>
          (dictGet mapOne p.1).bind (fun r0 => pyGetItem r0 "Id") = some q.1
          ∧ transform_campaign_data p.2 = some q.2)
          (([campDraft, campB].filter (needsUpdate mapOne)).map
            (fun c => (campaignId c, c))) ups) :=
  C1_reconciliation_partition mapOne [campDraft, campB] (by decide)

/-!
## C6 — planner idempotence
-/

/-- C6 counterexample: a mapping that covers every campaign of the first
run's plan but not the campaigns the first run *skipped* still reinserts
the skipped ones.  Campaign 1 (sent, already in the mapping) is skipped
by the first run, so the plan is `([campB], [])`; the mapping holding
only campaign 2 covers that whole plan, yet the second run puts campaign
1 into `toInsert`. -/
theorem C6_planner_idempotent_counterexample :
    syncPlan mapOne [campA, campB] = some ([campB], [])
    ∧ (dictGet mapTwo (campaignId campB)).isSome = true
    ∧ syncPlan mapTwo [campA, campB] = some ([campA], [])
    ∧ [campA] ≠ ([] : List PyVal) := by decide

/-- C6 (amended): if the second run's mapping covers both every campaign
of the first run's plan and every identifier already present in the
first run's mapping, the second run's `toInsert` is empty; if moreover
every campaign's raw status is `'sent'`, its `toUpdate` is empty too. -/
theorem C6_planner_idempotent_amended (m1 m2 : List (String × PyVal))
    (cs ins : List PyVal) (upd : List (String × PyVal))
    (hdict : ∀ c ∈ cs, c.isDict = true)
    (hplan : syncPlan m1 cs = some (ins, upd))
    (hkeep : ∀ k, (dictGet m1 k).isSome = true → (dictGet m2 k).isSome = true)
    (hins : ∀ c ∈ ins, (dictGet m2 (campaignId c)).isSome = true) :
    (∃ upd2, syncPlan m2 cs = some ([], upd2))
    ∧ ((∀ c ∈ cs, campaignStatus c = .str "sent") →
        syncPlan m2 cs = some ([], [])) := by
  have hchar1 := syncPlan_eq_filters m1 cs hdict
  rw [hplan] at hchar1
  have hins' : ins = cs.filter (isNew m1) :=
    congrArg Prod.fst (Option.some.inj hchar1)
  have hchar2 := syncPlan_eq_filters m2 cs hdict
  have hnew : ∀ c ∈ cs, isNew m2 c = false := by
    intro c hc
    by_cases hm1 : (dictGet m1 (campaignId c)).isSome = true
    · have := hkeep _ hm1
      simp [isNew, this]
    · have hnew1 : isNew m1 c = true := by
        have : (dictGet m1 (campaignId c)).isSome = false := by simpa using hm1
        simp [isNew, this]
      have hmem : c ∈ ins := by
        rw [hins']
        exact List.mem_filter.mpr ⟨hc, hnew1⟩
      have := hins c hmem
      simp [isNew, this]
  have hfilterNew : cs.filter (isNew m2) = [] := by
    rw [List.filter_eq_nil]
    intro a ha
    simp [hnew a ha]
  constructor
  · exact ⟨_, by rw [hchar2, hfilterNew]⟩
  · intro hsent
    have hfilterUpd : cs.filter (needsUpdate m2) = [] := by
      rw [List.filter_eq_nil]
      intro a ha
      simp [needsUpdate, hsent a ha, PyVal.beq_refl]
    rw [hchar2, hfilterNew, hfilterUpd]
    rfl

/-- C6 witness: first run against an empty mapping plans to insert the
already-sent campaign 1; a second run against a mapping now holding
campaign 1 has nothing to insert, and nothing to update either since
every campaign is sent. -/
theorem C6_planner_idempotent_witness :
    (∃ upd2, syncPlan mapOne [campA] = some ([], upd2))
    ∧ ((∀ c ∈ [campA], campaignStatus c = .str "sent") →
        syncPlan mapOne [campA] = some ([], [])) :=
  C6_planner_idempotent_amended [] mapOne [campA] [campA] []
    (by decide) (by decide)
    (by intro k hk; simp [dictGet] at hk)
    (by decide)

/-!
## C7 — duplicate handling in the existing-records index
-/

/-- Python dict assignment shadows exactly the assigned key. -/
theorem dictGet_dictInsert (d : List (String × PyVal)) (k : String) (v : PyVal)
    (k' : String) :
    dictGet (dictInsert d k v) k' = if k = k' then some v else dictGet d k' := by
  induction d with
  | nil => simp [dictInsert, dictGet]
  | cons p rest ih =>
      obtain ⟨a, b⟩ := p
      by_cases hak : a = k
      · subst hak
        by_cases hk' : a = k' <;> simp [dictInsert, dictGet, hk']
      · by_cases hk' : a = k'
        · subst hk'
          have : ¬ (k = a) := fun he => hak he.symm
          simp [dictInsert, hak, dictGet, this]
        · simp [dictInsert, hak, dictGet, hk', ih]

/-- Folding Python dict assignments keyed by `recordKey` makes the
lookup return the LAST record with the queried key, falling back to the
initial dict. -/
theorem dictGet_foldl_dictInsert (rs : List PyVal) :
    ∀ (d : List (String × PyVal)) (k : String),
      dictGet (rs.foldl (fun acc r => dictInsert acc (recordKey r) r) d) k =
        match rs.reverse.find? (fun r => recordKey r == k) with
        | some r => some r
        | Option.none => dictGet d k := by
  induction rs with
  | nil => intro d k; rfl
  | cons r rest ih =>
      intro d k
      rw [List.foldl_cons, ih]
      rw [List.reverse_cons, List.find?_append]
      cases hf : rest.reverse.find? (fun r => recordKey r == k) with
      | some r' => simp [Option.orElse]
      | none =>
          simp only [Option.orElse, Option.none_orElse]
          rw [dictGet_dictInsert]
          by_cases hk : recordKey r = k
          · have hb : (recordKey r == k) = true := by simp [hk]
            simp [List.find?, hb, hk]
          · have hb : (recordKey r == k) = false := by simp [hk]
            simp [List.find?, hb, hk]

/-- Every record a dict: the index comprehension succeeds and equals the
plain fold of dict assignments. -/
theorem campaignsIndexOf_eq_foldl (records : List PyVal) :
    ∀ d : List (String × PyVal), (∀ r ∈ records, r.isDict = true) →
      records.foldlM (fun d r =>
        match r with
        | .dict _ => some (dictInsert d (recordKey r) r)
        | _ => Option.none) d
      = some (records.foldl (fun acc r => dictInsert acc (recordKey r) r) d) := by
  induction records with
  | nil => intro d _; rfl
  | cons r rest ih =>
      intro d h
      obtain ⟨es, rfl⟩ := isDict_exists r (h r (List.mem_cons_self _ _))
      rw [List.foldlM_cons]
      simp only [List.foldl_cons]
      exact ih (dictInsert d (recordKey (.dict es)) (.dict es))
        (fun x hx => h x (List.mem_cons_of_mem _ hx))

/-- C7 counterexample: two destination rows share campaign identifier
`"5"`; the claim says the index keeps the FIRST, but the built index
maps `"5"` to the second row. -/
theorem C7_duplicate_index_counterexample :
    dictGet (get_existing_campaigns_dict (.response 200
        (.dict [("list", .list [rowFirst, rowSecond])]))) "5" = some rowSecond
    ∧ rowSecond ≠ rowFirst := by decide

/-- C7 (amended): for every destination listing made of dict rows, the
identifier-to-record index built from it keeps, for each key, the LAST
matching record in listing order — a Python dict comprehension lets
later duplicates overwrite earlier ones. -/
theorem C7_duplicate_index_amended (records : List PyVal)
    (h : ∀ r ∈ records, r.isDict = true) (k : String) :
    dictGet (get_existing_campaigns_dict
        (.response 200 (.dict [("list", .list records)]))) k =
      match records.reverse.find? (fun r => recordKey r == k) with
      | some r => some r
      | Option.none => Option.none := by
  have hidx : campaignsIndexOf (.dict [("list", .list records)]) =
      some (records.foldl (fun acc r => dictInsert acc (recordKey r) r) []) := by
    rw [campaignsIndexOf]
    simp only [pyGetD, dictGet, if_pos rfl, Option.getD_some, Option.some_bind]
    exact campaignsIndexOf_eq_foldl records [] h
  have hstep : get_existing_campaigns_dict
      (.response 200 (.dict [("list", .list records)]))
      = (campaignsIndexOf (.dict [("list", .list records)])).getD [] := rfl
  rw [hstep, hidx, Option.getD_some, dictGet_foldl_dictInsert]
  cases records.reverse.find? (fun r => recordKey r == k) with
  | some r => rfl
  | none => rfl

/-- C7 witness: the amended keep-last law instantiated at the duplicate
pair of rows and the key `"5"`. -/
theorem C7_duplicate_index_witness :
    dictGet (get_existing_campaigns_dict
        (.response 200 (.dict [("list", .list [rowFirst, rowSecond])]))) "5" =
      match [rowFirst, rowSecond].reverse.find?
          (fun r => recordKey r == "5") with
      | some r => some r
      | Option.none => Option.none :=
  C7_duplicate_index_amended [rowFirst, rowSecond] (by decide) "5"

/-!
## C8 — empty plan means no writes
-/

/-- C8: whenever the reconciliation loop plans nothing, the run hands no
insert and no update payload to `sync_records` (so no destination write
request is issued), exits with code 0, and ends on one of the two
early-return reports (`no campaigns found` / `nothing to sync`). -/
theorem C8_nothing_to_do (cs : List PyVal) (ex : List (String × PyVal))
    (h : syncPlan ex cs = some ([], [])) :
    (sync_brevo_to_nocodb cs ex).plannedInserts = []
    ∧ (sync_brevo_to_nocodb cs ex).plannedUpdates = []
    ∧ (sync_brevo_to_nocodb cs ex).exitCode = 0
    ∧ ((sync_brevo_to_nocodb cs ex).message = SyncMessage.noCampaigns
       ∨ (sync_brevo_to_nocodb cs ex).message = SyncMessage.nothingToDo) := by
  by_cases hcs : cs.isEmpty
  · simp [sync_brevo_to_nocodb, hcs]
  · simp [sync_brevo_to_nocodb, hcs, h]

/-- C8 witness: one already-sent campaign that is already in the mapping
— the plan is empty and the run performs no write and exits 0. -/
theorem C8_nothing_to_do_witness :
    (sync_brevo_to_nocodb [campA] mapOne).plannedInserts = []
    ∧ (sync_brevo_to_nocodb [campA] mapOne).plannedUpdates = []
    ∧ (sync_brevo_to_nocodb [campA] mapOne).exitCode = 0
    ∧ ((sync_brevo_to_nocodb [campA] mapOne).message = SyncMessage.noCampaigns
       ∨ (sync_brevo_to_nocodb [campA] mapOne).message = SyncMessage.nothingToDo) :=
  C8_nothing_to_do [campA] mapOne (by decide)

/-!
## C9 — listing failure degrades to an empty mapping
-/

/-- C9: every non-200 response and every exception makes
`get_existing_campaigns_dict` return the empty mapping instead of
raising, and planning against the empty mapping classifies every source
campaign as new, in source order, with nothing to update. -/
theorem C9_listing_failure_degrades (f : FetchOutcome)
    (hf : ∀ st body, f = .response st body → st ≠ 200)
    (cs : List PyVal) (hdict : ∀ c ∈ cs, c.isDict = true) :
    get_existing_campaigns_dict f = []
    ∧ syncPlan (get_existing_campaigns_dict f) cs = some (cs, []) := by
  have hempty : get_existing_campaigns_dict f = [] := by
    cases f with
    | failure => rfl
    | response st body =>
        have hne := hf st body rfl
        simp [get_existing_campaigns_dict, hne]
  refine ⟨hempty, ?_⟩
  rw [hempty, syncPlan_eq_filters [] cs hdict]
  have h1 : cs.filter (isNew []) = cs := by
    rw [List.filter_eq_self]
    intro a _
    simp [isNew, dictGet]
  have h2 : cs.filter (needsUpdate []) = [] := by
    rw [List.filter_eq_nil]
    intro a _
    simp [needsUpdate, dictGet]
  rw [h1, h2]
  rfl

/-- C9 witness: a 500 response yields the empty mapping, and the one
campaign in the source list is then planned as an insert. -/
theorem C9_listing_failure_witness :
    get_existing_campaigns_dict (.response 500 (.dict [])) = []
    ∧ syncPlan (get_existing_campaigns_dict (.response 500 (.dict [])))
        [campB] = some ([campB], []) :=
  C9_listing_failure_degrades (.response 500 (.dict []))
    (by intro st body he; cases he; decide) [campB] (by decide)

/-!
## C10 — insert fallback on 403
-/

/-- One record's insert attempts: exactly a 403 first response triggers
exactly one retry carrying the simplified six-field record; every other
first outcome sends the full record once and moves on. -/
theorem insertOne_attempts (r : NocoRecord) (first second : HttpResult) :
    (insertOne r first second).1 =
      if first = .status 403 then
        [.full r, .simplified (simplified_record r)]
      else [.full r] := by
  cases first with
  | netError => simp [insertOne]
  | status c =>
      by_cases h2 : c = 200 ∨ c = 201
      · have hne : ¬ (HttpResult.status c = HttpResult.status 403) := by
          rcases h2 with h | h <;> subst h <;> simp
        simp [insertOne, h2, hne]
      · by_cases h3 : c = 403
        · subst h3
          cases second <;> simp [insertOne, h2]
        · have hne : ¬ (HttpResult.status c = HttpResult.status 403) := by
            simpa using h3
          simp [insertOne, h2, h3, hne]

/-- C10: `insert_records` processes every record of the batch (one
result entry per record, no abort on failure) and, per record, sends
the full payload once and adds exactly one simplified-record retry
exactly when the first POST came back 403. -/
theorem C10_insert_fallback (records : List NocoRecord)
    (oracle : Nat → HttpResult × HttpResult) :
    (insert_records records oracle).length = records.length
    ∧ (∀ i (hi : i < records.length)
        (hj : i < (insert_records records oracle).length),
        ((insert_records records oracle).get ⟨i, hj⟩).1 =
          if (oracle i).1 = .status 403 then
            [.full (records.get ⟨i, hi⟩),
             .simplified (simplified_record (records.get ⟨i, hi⟩))]
          else [.full (records.get ⟨i, hi⟩)]) := by
  induction records generalizing oracle with
  | nil => exact ⟨rfl, fun i hi _ => absurd hi (Nat.not_lt_zero i)⟩
  | cons r rest ih =>
      obtain ⟨ihlen, ihget⟩ := ih (fun i => oracle (i + 1))
      refine ⟨by simpa [insert_records] using ihlen, ?_⟩
      intro i hi hj
      cases i with
      | zero =>
          simpa [insert_records] using
            insertOne_attempts r (oracle 0).1 (oracle 0).2
      | succ n =>
          have hi' : n < rest.length := Nat.lt_of_succ_lt_succ hi
          have hj' : n < (insert_records rest (fun i => oracle (i + 1))).length := by
            rw [ihlen]
            exact hi'
          simpa [insert_records] using ihget n hi' hj'

/-- C10 witness: a single record whose first POST is rejected with 403
is retried once with the simplified record. -/
theorem C10_insert_fallback_witness :
    (insert_records [recSender]
        (fun _ => (HttpResult.status 403, HttpResult.status 200))).length = 1
    ∧ ((insert_records [recSender]
        (fun _ => (HttpResult.status 403, HttpResult.status 200))).get
          ⟨0, by decide⟩).1 =
        [.full recSender, .simplified (simplified_record recSender)] := by
  have h := C10_insert_fallback [recSender]
    (fun _ => (HttpResult.status 403, HttpResult.status 200))
  refine ⟨by simpa using h.1, ?_⟩
  have h2 := h.2 0 (by decide) (by simpa using Nat.lt_of_lt_of_eq Nat.zero_lt_one h.1.symm)
  simpa using h2
